import Mathlib

/-!
# Verification of the idle-inhibitor daemon (inhibitor.py)

Shallow embedding of the idle-detection and lock-lifecycle state machine of
the idle-inhibitor service. The Python source spawns a helper process
(systemd-inhibit ... sleep infinity) to hold an OS inhibition lock, watches an
SSE line stream for activity, and releases the lock after an idle timeout.

Modelling choices:
- A line of text is a `List Char`; Python `str.strip` / `str.startswith`
  are embedded as `pyStrip` / `startsWithChars` (ASCII whitespace subset).
- The helper process handle (`subprocess.Popen`) is an `Option Nat` (a pid);
  `none` is the Released state, `some pid` is Held.
- External nondeterminism (whether the spawn succeeds, whether the helper
  stays alive, how teardown behaves) is passed in explicitly as environment
  values (`SpawnResult`, `RelEnv`, `EventEnv`).
- Wall-clock time is a `Nat`; the single-shot `threading.Timer` is an
  `Option Nat` deadline. `runTrace` gives the timed semantics of the event
  loop: activity events arrive at given instants, and the armed timer fires
  as soon as time passes its deadline with no intervening reset.
-/

namespace Inhibitor

/-- A raw text line from the SSE stream, as a list of characters. -/
abbrev Line := List Char

/-- ASCII whitespace stripped by Python `str.strip()` with no arguments. -/
def pyWhitespace (c : Char) : Bool :=
  c = ' ' || c = '\t' || c = '\n' || c = '\r' || c = '\x0B' || c = '\x0C'

/-- Python `line.strip()`: drop whitespace from both ends. -/
def pyStrip (l : Line) : Line :=
  ((l.dropWhile pyWhitespace).reverse.dropWhile pyWhitespace).reverse

/-- Python `s.startswith(p)` on character lists. -/
def startsWithChars (p l : Line) : Bool :=
  p.isPrefixOf l

/-- Classification of one SSE line by `SSEMonitor.handle_event`. -/
inductive EventClass where
  | Activity
  | Ignore
deriving DecidableEq, Repr

/-- The branch structure of `handle_event` after `line = line.strip()`:
empty lines and comment lines (leading colon) are ignored; any `data:` line
counts as activity; anything else falls through and is ignored. -/
def classifyStripped (l : Line) : EventClass :=
  if l = [] then EventClass.Ignore
  else if startsWithChars [':'] l then EventClass.Ignore
  else if startsWithChars ('d' :: 'a' :: 't' :: 'a' :: ':' :: []) l then EventClass.Activity
  else EventClass.Ignore

/-- The event classifier of `handle_event` (lines 169-186): strip the line,
then classify. -/
def classifyEvent (line : Line) : EventClass :=
  classifyStripped (pyStrip line)

/-- Outcome of the attempt to spawn the systemd-inhibit helper process in
`IdleInhibitor.acquire`: the `subprocess.Popen` call can raise, the spawned
process can die immediately (`poll()` is not None after the startup grace
sleep), or the helper comes up and stays up with a pid. -/
inductive SpawnResult where
  | spawnErr
  | diesImmediately
  | alive (pid : Nat)
deriving DecidableEq, Repr

/-- `IdleInhibitor.acquire` (lines 50-95). State is the helper-process
handle: `none` = Released, `some pid` = Held. Returns the Python boolean
result together with the new state. Held short-circuits with success;
otherwise the spawn environment decides: an exception or an immediately
dead helper produce `False` with the state reset to `none`. -/
def acquire (st : Option Nat) (spawn : SpawnResult) : Bool × Option Nat :=
  match st with
  | some pid => (true, some pid)
  | none =>
    match spawn with
    | SpawnResult.spawnErr => (false, none)
    | SpawnResult.diesImmediately => (false, none)
    | SpawnResult.alive pid => (true, some pid)

/-- Teardown environment for `IdleInhibitor.release`: whether some step of
teardown raises an exception, and how long after `terminate()` the helper
takes to exit (`none` = it never exits on its own). -/
structure RelEnv where
  errs : Bool
  exitAfter : Option Nat
deriving DecidableEq, Repr

/-- The bounded wait used by `release`: `self.process.wait(timeout=5)`. -/
def releaseGracePeriod : Nat := 5

/-- Observable outcome of `IdleInhibitor.release`: the resulting handle
state, whether an exception escaped to the caller, whether `terminate()`
was invoked, and whether the forceful `kill()` escalation ran. -/
structure ReleaseResult where
  state : Option Nat
  raised : Bool
  terminateCalled : Bool
  forcedKill : Bool
deriving DecidableEq, Repr

/-- `IdleInhibitor.release` (lines 97-117). If Released, nothing happens.
If Held, `terminate()` is called, then `wait(timeout=5)`; on timeout the
process is killed. Exceptions during teardown are caught and logged, and
the `finally` block sets the handle to `None` in every case, so no call
ever raises and the final state is always Released. -/
def release (st : Option Nat) (env : RelEnv) : ReleaseResult :=
  match st with
  | none =>
    { state := none, raised := false, terminateCalled := false, forcedKill := false }
  | some _ =>
    if env.errs then
      { state := none, raised := false, terminateCalled := true, forcedKill := false }
    else
      match env.exitAfter with
      | some d =>
        if d ≤ releaseGracePeriod then
          { state := none, raised := false, terminateCalled := true, forcedKill := false }
        else
          { state := none, raised := false, terminateCalled := true, forcedKill := true }
      | none =>
        { state := none, raised := false, terminateCalled := true, forcedKill := true }

/-- `IdleInhibitor.is_held` (lines 119-131). `procAlive` is the poll check:
whether the helper process is still running. A recorded but dead helper is
detected and the state self-transitions to Released before returning false. -/
def isHeld (st : Option Nat) (procAlive : Bool) : Bool × Option Nat :=
  match st with
  | none => (false, none)
  | some pid => if procAlive then (true, some pid) else (false, none)

/-- The monitor-visible state that survives across connections: the
inhibitor lock handle and the armed idle-timer deadline (`none` = no timer
armed, `some d` = the single-shot timer fires at instant `d`). -/
structure MonState where
  lockProc : Option Nat
  timer : Option Nat
deriving DecidableEq, Repr

/-- The state at process start: lock Released, no timer armed. -/
def initState : MonState := { lockProc := none, timer := none }

/-- `SSEMonitor.reset_idle_timer` (lines 143-153): cancel any armed timer
and arm a fresh single-shot timer for `IDLE_TIMEOUT` from now. -/
def resetIdleTimer (T now : Nat) (st : MonState) : MonState :=
  { st with timer := some (now + T) }

/-- `SSEMonitor._on_idle_timeout` (lines 155-160): release the lock and
clear the timer slot. -/
def onIdleTimeout (env : RelEnv) (st : MonState) : MonState :=
  { lockProc := (release st.lockProc env).state, timer := none }

/-- `SSEMonitor.cancel_timer` (lines 162-167). -/
def cancelTimer (st : MonState) : MonState :=
  { st with timer := none }

/-- `SSEMonitor.stop` (lines 246-249): sets the stop flag (not part of
`MonState`) and cancels the idle timer. It does not touch the lock. -/
def stopMonitor (st : MonState) : MonState :=
  cancelTimer st

/-- Visible actions of one `handle_event` call, used to observe how many
lock-acquisition attempts an event triggers. -/
inductive Action where
  | acquireAttempt (ok : Bool)
deriving DecidableEq, Repr

/-- Per-event environment: the poll result inside `is_held` and the spawn
outcome inside `acquire`. -/
structure EventEnv where
  procAlive : Bool
  spawn : SpawnResult
deriving DecidableEq, Repr

/-- `SSEMonitor.handle_event` (lines 169-186): strip and classify the line;
on activity, acquire the lock if not held (one attempt, no retry loop) and
then reset the idle timer unconditionally; otherwise do nothing. -/
def handleEvent (T : Nat) (env : EventEnv) (now : Nat) (st : MonState) (line : Line) :
    MonState × List Action :=
  match classifyEvent line with
  | EventClass.Ignore => (st, [])
  | EventClass.Activity =>
    let held := (isHeld st.lockProc env.procAlive).1
    let lp1 := (isHeld st.lockProc env.procAlive).2
    if held then
      (resetIdleTimer T now { st with lockProc := lp1 }, [])
    else
      let a := acquire lp1 env.spawn
      (resetIdleTimer T now { st with lockProc := a.2 }, [Action.acquireAttempt a.1])

/-- A canonical data line; the payload is irrelevant to classification. -/
def dataLine : Line := ('d' :: 'a' :: 't' :: 'a' :: ':' :: ' ' :: '\x7B' :: '\x7D' :: [])

/-- Passage of wall-clock time from the current state up to instant `t`:
if the single-shot timer is armed with a deadline that has passed, it fires
once (`_on_idle_timeout`); otherwise nothing happens. -/
def advance (rel : RelEnv) (st : MonState) (t : Nat) : MonState :=
  match st.timer with
  | some d => if d ≤ t then onIdleTimeout rel st else st
  | none => st

/-- Timed semantics of the monitor: process the activity events (given by
their arrival instants, in order) that occur no later than `t`, letting the
timer fire between events when its deadline passes, and finally let time
run to `t`. Every activity event is a `data:` line fed to `handle_event`. -/
def runTrace (T : Nat) (env : EventEnv) (rel : RelEnv) (st : MonState)
    (events : List Nat) (t : Nat) : MonState :=
  match events with
  | [] => advance rel st t
  | e :: rest =>
    if e ≤ t then
      runTrace T env rel (handleEvent T env e (advance rel st e) dataLine).1 rest t
    else
      advance rel st t

/-- The instant of the last event of the trace `c :: es`. -/
def lastEvent (c : Nat) : List Nat → Nat
  | [] => c
  | e :: rest => lastEvent e rest

/-- The events of `es` strictly ascend from `c` with consecutive gaps less
than the idle timeout `T`. -/
def gapsOK (T : Nat) : Nat → List Nat → Bool
  | _, [] => true
  | c, e :: rest => decide (c < e) && decide (e < c + T) && gapsOK T e rest

/-- State effect of one connection attempt: `connect_and_monitor`
(lines 188-244) mutates the monitor state only through `handle_event`, one
call per delivered line. Each delivered line comes with its arrival instant
and per-event environment. -/
def processLines (T : Nat) (st : MonState) (inputs : List (EventEnv × Nat × Line)) : MonState :=
  inputs.foldl (fun s i => (handleEvent T i.1 i.2.1 s i.2.2).1) st

/-- How one connection attempt ends: a connection error or unexpected
exception (returns False), graceful EOF of the stream (returns True), or
the stop flag observed (returns True). -/
inductive ConnOutcome where
  | droppedErr
  | gracefulEOF
  | stoppedFlag
deriving DecidableEq, Repr

/-- `SSEMonitor.connect_and_monitor`: the monitor state after the attempt
and the boolean result. The connect/except/reconnect machinery itself
touches neither the lock nor the timer. -/
def connectAndMonitor (T : Nat) (st : MonState) (inputs : List (EventEnv × Nat × Line))
    (outcome : ConnOutcome) : MonState × Bool :=
  (processLines T st inputs,
   match outcome with
   | ConnOutcome.droppedErr => false
   | ConnOutcome.gracefulEOF => true
   | ConnOutcome.stoppedFlag => true)

/-- The reconnect loop of `main` (lines 292-302): run connection attempts
in sequence, breaking when the stop flag is observed; between attempts it
only sleeps `RECONNECT_DELAY`, touching no monitor state. -/
def mainReconnectLoop (T : Nat) :
    MonState → List (List (EventEnv × Nat × Line) × ConnOutcome) → MonState
  | st, [] => st
  | st, (inputs, outcome) :: rest =>
    let st1 := (connectAndMonitor T st inputs outcome).1
    match outcome with
    | ConnOutcome.stoppedFlag => st1
    | ConnOutcome.droppedErr => mainReconnectLoop T st1 rest
    | ConnOutcome.gracefulEOF => mainReconnectLoop T st1 rest

/-- Shutdown path of `main` (lines 304-309): on the KeyboardInterrupt the
signal handler raises, the `finally` block runs `monitor.stop()` then
`inhibitor.release()`, and `main` returns normally, so the process exits
with status 0. -/
def shutdownOnSignal (rel : RelEnv) (st : MonState) : MonState × Nat :=
  let st1 := stopMonitor st
  let st2 := { st1 with lockProc := (release st1.lockProc rel).state }
  (st2, 0)

/-- Where `connect_and_monitor` (lines 198-211) directs the connection:
through the unix-socket session (socket path and SSE path kept abstract;
the URL assembly percent-encodes the socket path) or over plain HTTP. -/
inductive ConnTarget where
  | unixSock (socket : Line) (sseUrl : Line)
  | plainHttp (url : Line)
deriving DecidableEq, Repr

/-- URL/session selection in `connect_and_monitor`: when a unix-socket path
is configured (Python truthiness: non-empty) the code tries to import
requests-unixsocket; on ImportError it logs a warning and falls back to the
plain-HTTP SSE URL instead of failing the attempt. -/
def selectTarget (unixSocket sseUrl : Line) (unixLibAvailable : Bool) : ConnTarget :=
  if unixSocket = [] then
    ConnTarget.plainHttp sseUrl
  else if unixLibAvailable then
    ConnTarget.unixSock unixSocket sseUrl
  else
    ConnTarget.plainHttp sseUrl

/-- Default `SSE_URL` (line 24). -/
def defaultSseUrl : Line := "http://localhost/api/v1/events".toList

/-- Default `UNIX_SOCKET` (line 25). -/
def defaultUnixSocket : Line := "/var/run/wolf/wolf.sock".toList

/-! ## Helper lemmas -/

theorem release_state_none (st : Option Nat) (env : RelEnv) :
    (release st env).state = none := by
  cases st with
  | none => rfl
  | some pid =>
    unfold release
    by_cases h : env.errs
    · simp [h]
    · cases henv : env.exitAfter with
      | none => simp [h, henv]
      | some d =>
        by_cases hd : d ≤ releaseGracePeriod <;> simp [h, henv, hd]

theorem classify_dataLine : classifyEvent dataLine = EventClass.Activity := by
  decide

theorem dropWhile_append_singleton (p : Char → Bool) (c : Char) (h : p c = false) :
    ∀ xs : Line, ∃ ys : Line, List.dropWhile p (xs ++ (c :: [])) = ys ++ (c :: []) := by
  intro xs
  induction xs with
  | nil => exact ⟨[], by simp [List.dropWhile_cons, h]⟩
  | cons a xs ih =>
    by_cases ha : p a
    · obtain ⟨ys, hys⟩ := ih
      exact ⟨ys, by simp [List.dropWhile_cons, ha, hys]⟩
    · exact ⟨a :: xs, by simp [List.dropWhile_cons, ha]⟩

theorem pyStrip_cons_of_head (c : Char) (rest : Line) (h : pyWhitespace c = false) :
    ∃ t : Line, pyStrip (c :: rest) = c :: t := by
  obtain ⟨ys, hys⟩ := dropWhile_append_singleton pyWhitespace c h rest.reverse
  refine ⟨ys.reverse, ?_⟩
  simp [pyStrip, List.dropWhile_cons, h, hys]

theorem handleEvent_ignore (T now : Nat) (env : EventEnv) (st : MonState) (line : Line)
    (h : classifyEvent line = EventClass.Ignore) :
    handleEvent T env now st line = (st, []) := by
  unfold handleEvent
  rw [h]

theorem handleEvent_held (T now : Nat) (env : EventEnv) (halive : env.procAlive = true)
    (p : Nat) (tm : Option Nat) :
    handleEvent T env now { lockProc := some p, timer := tm } dataLine =
      ({ lockProc := some p, timer := some (now + T) }, []) := by
  unfold handleEvent
  rw [classify_dataLine]
  simp [isHeld, halive, resetIdleTimer]

theorem handleEvent_notHeld (T now : Nat) (env : EventEnv) (tm : Option Nat) :
    handleEvent T env now { lockProc := none, timer := tm } dataLine =
      ({ lockProc := (acquire none env.spawn).2, timer := some (now + T) },
        (Action.acquireAttempt (acquire none env.spawn).1 :: [])) := by
  unfold handleEvent
  rw [classify_dataLine]
  simp [isHeld, resetIdleTimer]

theorem gapsOK_cons (T c e : Nat) (rest : List Nat) :
    gapsOK T c (e :: rest) = true ↔ c < e ∧ e < c + T ∧ gapsOK T e rest = true := by
  simp [gapsOK, Bool.and_eq_true, decide_eq_true_eq, and_assoc]

theorem lastEvent_ge (T : Nat) :
    ∀ (es : List Nat) (c : Nat), gapsOK T c es = true → c ≤ lastEvent c es := by
  intro es
  induction es with
  | nil => intro c _; exact Nat.le_refl c
  | cons e rest ih =>
    intro c h
    rw [gapsOK_cons] at h
    obtain ⟨h1, _, h3⟩ := h
    calc c ≤ e := Nat.le_of_lt h1
      _ ≤ lastEvent e rest := ih e h3

theorem runTrace_held (T p : Nat) (env : EventEnv) (rel : RelEnv)
    (halive : env.procAlive = true) :
    ∀ (es : List Nat) (c t : Nat), gapsOK T c es = true →
      ((t < lastEvent c es + T →
        (runTrace T env rel { lockProc := some p, timer := some (c + T) } es t).lockProc
          = some p) ∧
       (lastEvent c es + T ≤ t →
        (runTrace T env rel { lockProc := some p, timer := some (c + T) } es t).lockProc
          = none)) := by
  intro es
  induction es with
  | nil =>
    intro c t _
    constructor
    · intro hlt
      have hnot : ¬ (c + T ≤ t) := by
        simp only [lastEvent] at hlt
        omega
      simp [runTrace, advance, hnot]
    · intro hge
      have h : c + T ≤ t := by simp only [lastEvent] at hge; omega
      simp [runTrace, advance, h, onIdleTimeout, release_state_none]
  | cons e rest ih =>
    intro c t hchain
    rw [gapsOK_cons] at hchain
    obtain ⟨hce, heT, hrest⟩ := hchain
    have hadv : advance rel { lockProc := some p, timer := some (c + T) } e =
        { lockProc := some p, timer := some (c + T) } := by
      have hnot : ¬ (c + T ≤ e) := by omega
      simp [advance, hnot]
    have hlast : lastEvent c (e :: rest) = lastEvent e rest := rfl
    by_cases het : e ≤ t
    · have hrun :
          runTrace T env rel { lockProc := some p, timer := some (c + T) } (e :: rest) t =
          runTrace T env rel { lockProc := some p, timer := some (e + T) } rest t := by
        simp [runTrace, het, hadv, handleEvent_held T e env halive p (some (c + T))]
      rw [hlast, hrun]
      exact ih e t hrest
    · have hnf : ¬ (c + T ≤ t) := by omega
      have hrun :
          runTrace T env rel { lockProc := some p, timer := some (c + T) } (e :: rest) t =
          { lockProc := some p, timer := some (c + T) } := by
        simp [runTrace, het, advance, hnf]
      rw [hlast, hrun]
      constructor
      · intro _; rfl
      · intro hge
        have hle : e ≤ lastEvent e rest := lastEvent_ge T rest e hrest
        omega

theorem processLines_quiet (T : Nat) :
    ∀ (inputs : List (EventEnv × Nat × Line)) (st : MonState),
      (∀ i ∈ inputs, classifyEvent i.2.2 = EventClass.Ignore) →
      processLines T st inputs = st := by
  intro inputs
  induction inputs with
  | nil => intro st _; rfl
  | cons i inputs ih =>
    intro st hq
    have h0 : classifyEvent i.2.2 = EventClass.Ignore := hq i (List.mem_cons_self i inputs)
    have h1 : handleEvent T i.1 i.2.1 st i.2.2 = (st, []) :=
      handleEvent_ignore _ _ _ _ _ h0
    calc processLines T st (i :: inputs)
        = processLines T (handleEvent T i.1 i.2.1 st i.2.2).1 inputs := rfl
      _ = processLines T st inputs := by rw [h1]
      _ = st := ih st (fun j hj => hq j (List.mem_cons_of_mem i hj))

/-! ## Claims -/

/-- Claim C2: acquire and release are idempotent. For every lock state,
acquire on a Held lock returns success and leaves the existing helper
handle untouched, and release on a Released lock is a no-op: the state
stays Released and no teardown (terminate/kill) is performed. -/
theorem C2_idempotent (p : Nat) (spawn : SpawnResult) (env : RelEnv) :
    acquire (some p) spawn = (true, some p) ∧
    release none env =
      { state := none, raised := false, terminateCalled := false, forcedKill := false } := by
  exact ⟨rfl, rfl⟩

/-- Claim C6: is_held returns false and self-transitions Held to Released
when the helper process backing the lock has died; it returns false when no
helper is recorded; and it returns true leaving the state alone when the
helper is alive. -/
theorem C6_isHeld_detects_death (p : Nat) :
    isHeld none true = (false, none) ∧
    isHeld none false = (false, none) ∧
    isHeld (some p) false = (false, none) ∧
    isHeld (some p) true = (true, some p) := by
  exact ⟨rfl, rfl, rfl, rfl⟩

/-- Claim C7: the event classifier is a pure function of the line: the
empty line, any line beginning with a colon (such as a keepalive comment),
and any whitespace-only line map to Ignore, and every line whose stripped
form starts with a data marker maps to Activity regardless of payload. -/
theorem C7_classifier (l : Line) (c0 : Char) (rest : Line) :
    classifyEvent [] = EventClass.Ignore ∧
    classifyEvent (':' :: 'k' :: 'e' :: 'e' :: 'p' :: 'a' :: 'l' :: 'i' :: 'v' :: 'e' :: [])
      = EventClass.Ignore ∧
    ((∀ c ∈ l, pyWhitespace c = true) → classifyEvent l = EventClass.Ignore) ∧
    (c0 = ':' → classifyEvent (c0 :: rest) = EventClass.Ignore) ∧
    (startsWithChars ('d' :: 'a' :: 't' :: 'a' :: ':' :: []) (pyStrip l) = true →
      classifyEvent l = EventClass.Activity) := by
  refine ⟨by decide, by decide, ?_, ?_, ?_⟩
  · intro hws
    have h1 : l.dropWhile pyWhitespace = [] := by
      rw [List.dropWhile_eq_nil_iff]
      intro x hx
      exact hws x hx
    simp [classifyEvent, pyStrip, h1, classifyStripped]
  · intro hc
    subst hc
    obtain ⟨t, ht⟩ := pyStrip_cons_of_head ':' rest (by decide)
    simp [classifyEvent, ht, classifyStripped, startsWithChars, List.isPrefixOf]
  · intro hdata
    unfold classifyEvent
    unfold startsWithChars at hdata
    cases hs : pyStrip l with
    | nil => rw [hs] at hdata; simp [List.isPrefixOf] at hdata
    | cons c t =>
      rw [hs] at hdata
      simp [List.isPrefixOf, Bool.and_eq_true] at hdata
      obtain ⟨hcd, hrest⟩ := hdata
      subst hcd
      simp [classifyStripped, startsWithChars, List.isPrefixOf, hrest]

theorem C7_witness :
    classifyEvent (' ' :: '\t' :: []) = EventClass.Ignore ∧
    classifyEvent (':' :: 'x' :: []) = EventClass.Ignore ∧
    classifyEvent (' ' :: 'd' :: 'a' :: 't' :: 'a' :: ':' :: []) = EventClass.Activity := by
  refine ⟨(C7_classifier (' ' :: '\t' :: []) ':' []).2.2.1 (by decide),
    (C7_classifier [] ':' ('x' :: [])).2.2.2.1 rfl,
    (C7_classifier (' ' :: 'd' :: 'a' :: 't' :: 'a' :: ':' :: []) ':' []).2.2.2.2 (by decide)⟩

/-- Claim C1: for every trace of activity events spaced less than the idle
timeout apart (and a healthy backend: the helper spawns and stays alive),
the lock is Held continuously from the first event until the last event
plus the idle timeout, and it is Released at every instant from one full
idle-timeout window after the last event onward. -/
theorem C1_held_window (T p e0 t : Nat) (rest : List Nat) (env : EventEnv) (rel : RelEnv)
    (halive : env.procAlive = true) (hspawn : env.spawn = SpawnResult.alive p)
    (hchain : gapsOK T e0 rest = true) :
    (e0 ≤ t → t < lastEvent e0 rest + T →
      (runTrace T env rel initState (e0 :: rest) t).lockProc ≠ none) ∧
    (lastEvent e0 rest + T ≤ t →
      (runTrace T env rel initState (e0 :: rest) t).lockProc = none) := by
  have hfirst : ∀ u, e0 ≤ u → runTrace T env rel initState (e0 :: rest) u =
      runTrace T env rel { lockProc := some p, timer := some (e0 + T) } rest u := by
    intro u hu
    have hadv : advance rel initState e0 = initState := by
      simp [advance, initState]
    have hev : handleEvent T env e0 initState dataLine =
        ({ lockProc := some p, timer := some (e0 + T) },
          (Action.acquireAttempt true :: [])) := by
      have h0 : initState = { lockProc := none, timer := none } := rfl
      rw [h0, handleEvent_notHeld, hspawn]
      rfl
    simp [runTrace, hu, hadv, hev]
  have hinv := runTrace_held T p env rel halive rest e0 t hchain
  constructor
  · intro h1 h2
    rw [hfirst t h1, hinv.1 h2]
    simp
  · intro hge
    have h1 : e0 ≤ t := by
      have := lastEvent_ge T rest e0 hchain
      omega
    rw [hfirst t h1]
    exact hinv.2 hge

theorem C1_witness :
    (runTrace 2 { procAlive := true, spawn := SpawnResult.alive 7 }
      { errs := false, exitAfter := some 0 } initState (0 :: 1 :: []) 2).lockProc ≠ none ∧
    (runTrace 2 { procAlive := true, spawn := SpawnResult.alive 7 }
      { errs := false, exitAfter := some 0 } initState (0 :: 1 :: []) 5).lockProc = none := by
  constructor
  · exact (C1_held_window 2 7 0 2 (1 :: [])
      { procAlive := true, spawn := SpawnResult.alive 7 }
      { errs := false, exitAfter := some 0 } rfl rfl (by decide)).1 (by decide) (by decide)
  · exact (C1_held_window 2 7 0 5 (1 :: [])
      { procAlive := true, spawn := SpawnResult.alive 7 }
      { errs := false, exitAfter := some 0 } rfl rfl (by decide)).2 (by decide)

/-- Claim C3: a connection drop followed by a reconnect with no intervening
activity event leaves the inhibitor lock state and the idle timer exactly
as they were: the attempt leaves the state untouched, and the drop plus
reconnect cycle of the main loop is invisible to the monitor state. -/
theorem C3_reconnect_frame (T : Nat) (st : MonState)
    (inputs : List (EventEnv × Nat × Line))
    (attempts : List (List (EventEnv × Nat × Line) × ConnOutcome))
    (hquiet : ∀ i ∈ inputs, classifyEvent i.2.2 = EventClass.Ignore) :
    (connectAndMonitor T st inputs ConnOutcome.droppedErr).1 = st ∧
    mainReconnectLoop T st ((inputs, ConnOutcome.droppedErr) :: attempts) =
      mainReconnectLoop T st attempts := by
  have h := processLines_quiet T inputs st hquiet
  constructor
  · exact h
  · simp [mainReconnectLoop, connectAndMonitor, h]

theorem C3_witness :
    (connectAndMonitor 300 { lockProc := some 3, timer := some 9 }
      (({ procAlive := true, spawn := SpawnResult.spawnErr }, 0, (':' :: 'k' :: [])) :: [])
      ConnOutcome.droppedErr).1 = { lockProc := some 3, timer := some 9 } := by
  exact (C3_reconnect_frame 300 { lockProc := some 3, timer := some 9 }
    (({ procAlive := true, spawn := SpawnResult.spawnErr }, 0, (':' :: 'k' :: [])) :: [])
    [] (by decide)).1

/-- Claim C4: for every starting state, release never raises; the internal
state is forced to Released regardless of teardown outcome; the graceful
wait is bounded at 5 seconds; and when graceful termination does not
complete within that bound the teardown escalates to a forceful kill. -/
theorem C4_release_total (st : Option Nat) (env : RelEnv) :
    releaseGracePeriod = 5 ∧
    (release st env).raised = false ∧
    (release st env).state = none ∧
    (st ≠ none → env.errs = false → env.exitAfter = none →
      (release st env).forcedKill = true) ∧
    (∀ d, st ≠ none → env.errs = false → env.exitAfter = some d →
      releaseGracePeriod < d → (release st env).forcedKill = true) := by
  refine ⟨rfl, ?_, release_state_none st env, ?_, ?_⟩
  · cases st with
    | none => rfl
    | some p =>
      unfold release
      by_cases h : env.errs
      · simp [h]
      · cases he : env.exitAfter with
        | none => simp [h, he]
        | some d => by_cases hd : d ≤ releaseGracePeriod <;> simp [h, he, hd]
  · intro hne herr hexit
    cases st with
    | none => exact absurd rfl hne
    | some p => simp [release, herr, hexit]
  · intro d hne herr hexit hd
    cases st with
    | none => exact absurd rfl hne
    | some p =>
      have hnd : ¬ (d ≤ releaseGracePeriod) := by omega
      simp [release, herr, hexit, hnd]

theorem C4_witness :
    (release (some 1) { errs := false, exitAfter := none }).forcedKill = true ∧
    (release (some 1) { errs := false, exitAfter := some 9 }).forcedKill = true := by
  constructor
  · exact (C4_release_total (some 1)
      { errs := false, exitAfter := none }).2.2.2.1 (by decide) rfl rfl
  · exact (C4_release_total (some 1)
      { errs := false, exitAfter := some 9 }).2.2.2.2 9 (by decide) rfl rfl (by decide)

/-- Claim C5: when acquire fails (spawn exception or an immediately dying
helper) it returns a failure result and leaves the lock Released; the
activity event that triggered it performs exactly one acquisition attempt
(no tight retry loop), and the next activity event attempts acquisition
again. -/
theorem C5_acquire_failure (T now now2 : Nat) (st : MonState) (env env2 : EventEnv)
    (hno : st.lockProc = none)
    (hfail : env.spawn = SpawnResult.spawnErr ∨ env.spawn = SpawnResult.diesImmediately) :
    acquire none env.spawn = (false, none) ∧
    (handleEvent T env now st dataLine).1.lockProc = none ∧
    (handleEvent T env now st dataLine).2 = (Action.acquireAttempt false :: []) ∧
    (∃ ok, (handleEvent T env2 now2 (handleEvent T env now st dataLine).1 dataLine).2 =
      (Action.acquireAttempt ok :: [])) := by
  obtain ⟨lp, tm⟩ := st
  have hlp : lp = none := hno
  subst hlp
  have hacq : acquire none env.spawn = (false, none) := by
    rcases hfail with h | h <;> rw [h] <;> rfl
  have h1 : (handleEvent T env now { lockProc := none, timer := tm } dataLine).1 =
      { lockProc := none, timer := some (now + T) } := by
    rw [handleEvent_notHeld, hacq]
  refine ⟨hacq, ?_, ?_, ?_⟩
  · rw [h1]
  · rw [handleEvent_notHeld, hacq]
  · refine ⟨(acquire none env2.spawn).1, ?_⟩
    rw [h1, handleEvent_notHeld]

theorem C5_witness :
    acquire none SpawnResult.spawnErr = (false, none) ∧
    (handleEvent 300 { procAlive := true, spawn := SpawnResult.spawnErr } 0
      initState dataLine).1.lockProc = none := by
  have h := C5_acquire_failure 300 0 1 initState
    { procAlive := true, spawn := SpawnResult.spawnErr }
    { procAlive := true, spawn := SpawnResult.diesImmediately } rfl (Or.inl rfl)
  exact ⟨h.1, h.2.1⟩

/-- Claim C8: when a termination signal arrives while the lock is Held and
the idle timer is Armed, the shutdown path cancels the timer, releases the
lock, and the process exits with status 0. -/
theorem C8_shutdown (st : MonState) (rel : RelEnv) (p d : Nat)
    (hheld : st.lockProc = some p) (harmed : st.timer = some d) :
    shutdownOnSignal rel st = ({ lockProc := none, timer := none }, 0) := by
  obtain ⟨lp, tm⟩ := st
  have h1 : lp = some p := hheld
  have h2 : tm = some d := harmed
  subst h1
  subst h2
  simp [shutdownOnSignal, stopMonitor, cancelTimer, release_state_none]

theorem C8_witness :
    shutdownOnSignal { errs := false, exitAfter := some 0 }
      { lockProc := some 4, timer := some 10 } =
      ({ lockProc := none, timer := none }, 0) := by
  exact C8_shutdown { lockProc := some 4, timer := some 10 }
    { errs := false, exitAfter := some 0 } 4 10 rfl rfl

/-- Claim C9: on an activity event the idle timer is reset even when lock
acquisition fails, so the timer can be Armed while the lock is Released;
when the timer then fires, the release is a no-op (terminate is never
called) and the state stays Released with the timer cleared. -/
theorem C9_armed_while_released (T now : Nat) (env : EventEnv) (rel : RelEnv)
    (hfail : env.spawn = SpawnResult.spawnErr ∨ env.spawn = SpawnResult.diesImmediately) :
    (handleEvent T env now initState dataLine).1 =
      { lockProc := none, timer := some (now + T) } ∧
    onIdleTimeout rel ((handleEvent T env now initState dataLine).1) =
      { lockProc := none, timer := none } ∧
    (release ((handleEvent T env now initState dataLine).1).lockProc rel).terminateCalled
      = false := by
  have hacq : acquire none env.spawn = (false, none) := by
    rcases hfail with h | h <;> rw [h] <;> rfl
  have h1 : (handleEvent T env now initState dataLine).1 =
      { lockProc := none, timer := some (now + T) } := by
    have h0 : initState = { lockProc := none, timer := none } := rfl
    rw [h0, handleEvent_notHeld, hacq]
  refine ⟨h1, ?_, ?_⟩
  · rw [h1]
    simp [onIdleTimeout, release]
  · rw [h1]
    rfl

theorem C9_witness :
    (handleEvent 3 { procAlive := true, spawn := SpawnResult.spawnErr } 0
      initState dataLine).1 = { lockProc := none, timer := some 3 } := by
  exact (C9_armed_while_released 3 0
    { procAlive := true, spawn := SpawnResult.spawnErr }
    { errs := false, exitAfter := some 0 } (Or.inl rfl)).1

/-- Claim C10: the default configuration sets a unix-socket path, and when
the requests-unixsocket library cannot be imported, the URL selection falls
back to plain HTTP to the configured SSE URL instead of failing the
connection attempt; this holds for every non-empty socket path. -/
theorem C10_unixsocket_fallback :
    defaultUnixSocket ≠ [] ∧
    selectTarget defaultUnixSocket defaultSseUrl false =
      ConnTarget.plainHttp defaultSseUrl ∧
    (∀ sock url : Line, sock ≠ [] →
      selectTarget sock url false = ConnTarget.plainHttp url) := by
  refine ⟨by decide, by decide, ?_⟩
  intro sock url h
  simp [selectTarget, h]

theorem C10_witness :
    selectTarget ('s' :: []) ('u' :: []) false = ConnTarget.plainHttp ('u' :: []) := by
  exact C10_unixsocket_fallback.2.2 ('s' :: []) ('u' :: []) (by decide)

end Inhibitor
